import Mathlib

/-!
Verification development for the Baidu login handler
(`src/baidu_login/login_handler.py`).

The Python module is shallowly embedded: decoded JSON payloads become the
inductive tree `JVal` (Python `None`/`str`/`int`/`bool`/`dict`/`list`);
Python dictionaries become association lists with first-key-wins lookup and
in-place-overwrite update, mirroring insertion order; the network is an
oracle supplying each attempt's outcome; `float` retry durations are
modelled as rationals.  Fallible code returns `Except`.
-/

set_option autoImplicit false

namespace BaiduLogin

/-- Decoded JSON payload tree, the shape of `_decode_response_body`'s result:
Python `None`, `str`, numbers, booleans, `dict` and `list`. -/
inductive JVal where
  | null
  | str (s : String)
  | num (n : Int)
  | bool (b : Bool)
  | obj (fields : List (String × JVal))
  | arr (items : List JVal)

/-- Python truthiness (`if value:`) of a decoded JSON value. -/
def jTruthy : JVal → Bool
  | .null => false
  | .str s => s ≠ ""
  | .num n => n ≠ 0
  | .bool b => b
  | .obj fields => !fields.isEmpty
  | .arr items => !items.isEmpty

/-- The membership test `value in (None, "")` used by `_find_first_value`. -/
def jIsNoneOrEmpty : JVal → Bool
  | .null => true
  | .str s => s = ""
  | _ => false

mutual
/-- Python `str(value)` on a decoded JSON value.  Containers render in a
`repr`-like form; the development only relies on container renderings being
non-blank (they start with a bracket). -/
def pyStr : JVal → String
  | .null => "None"
  | .str s => s
  | .num n => toString n
  | .bool b => if b then "True" else "False"
  | .obj fields => "\x7b" ++ pyStrFields fields ++ "\x7d"
  | .arr items => "[" ++ pyStrItems items ++ "]"

def pyStrFields : List (String × JVal) → String
  | [] => ""
  | (k, v) :: rest => k ++ ": " ++ pyStr v ++ (if rest.isEmpty then "" else ", ") ++ pyStrFields rest

def pyStrItems : List JVal → String
  | [] => ""
  | v :: rest => pyStr v ++ (if rest.isEmpty then "" else ", ") ++ pyStrItems rest
end

mutual
/-- Node count, the termination measure for the breadth-first queue loop. -/
def jsize : JVal → Nat
  | .null => 1
  | .str _ => 1
  | .num _ => 1
  | .bool _ => 1
  | .obj fields => 1 + jsizeF fields
  | .arr items => 1 + jsizeA items

def jsizeF : List (String × JVal) → Nat
  | [] => 0
  | (_, v) :: rest => jsize v + jsizeF rest

def jsizeA : List JVal → Nat
  | [] => 0
  | v :: rest => jsize v + jsizeA rest
end

/-- `dict.get` / `key in node`: first binding wins, as in a Python dict
(whose keys are unique). -/
def dGet (fields : List (String × JVal)) (key : String) : Option JVal :=
  match fields with
  | [] => none
  | (k, v) :: rest => if k = key then some v else dGet rest key

/-- The children a node contributes to the queue: `node.values()` for a
dict, the elements for a list, nothing for scalars. -/
def jChildren : JVal → List JVal
  | .obj fields => fields.map Prod.snd
  | .arr items => items
  | _ => []

/-- The inner candidate scan of `_find_first_value`:
`for key in keys: if key in node and node[key] not in (None, ""): return node[key]`. -/
def scanKeys (keys : List String) (fields : List (String × JVal)) : Option JVal :=
  match keys with
  | [] => none
  | k :: rest =>
    match dGet fields k with
    | some v => if jIsNoneOrEmpty v then scanKeys rest fields else some v
    | none => scanKeys rest fields

/-- Scan one queue node: only dict nodes are scanned for candidate keys. -/
def scanNode (keys : List String) : JVal → Option JVal
  | .obj fields => scanKeys keys fields
  | _ => none

/-- Total size of a queue, the loop's termination measure. -/
def queueSize (queue : List JVal) : Nat := (queue.map jsize).sum

theorem jsizeF_eq_sum (fields : List (String × JVal)) :
    jsizeF fields = (fields.map (fun p => jsize p.2)).sum := by
  induction fields with
  | nil => simp [jsizeF]
  | cons p rest ih => cases p; simp [jsizeF, ih]

theorem jsizeA_eq_sum (items : List JVal) :
    jsizeA items = (items.map jsize).sum := by
  induction items with
  | nil => simp [jsizeA]
  | cons v rest ih => simp [jsizeA, ih]

theorem queueSize_children_lt (node : JVal) :
    queueSize (jChildren node) < jsize node := by
  cases node with
  | obj fields =>
    simp only [queueSize, jChildren, jsize, jsizeF_eq_sum, List.map_map]
    have h : (fields.map (jsize ∘ Prod.snd)).sum = (fields.map fun p => jsize p.2).sum := rfl
    omega
  | arr items => simp only [queueSize, jChildren, jsize, jsizeA_eq_sum]; omega
  | null => simp only [queueSize, jChildren, jsize, List.map_nil, List.sum_nil]; omega
  | str s => simp only [queueSize, jChildren, jsize, List.map_nil, List.sum_nil]; omega
  | num n => simp only [queueSize, jChildren, jsize, List.map_nil, List.sum_nil]; omega
  | bool b => simp only [queueSize, jChildren, jsize, List.map_nil, List.sum_nil]; omega

theorem queueSize_step (node : JVal) (rest : List JVal) :
    queueSize (rest ++ jChildren node) < queueSize (node :: rest) := by
  simp only [queueSize, List.map_append, List.sum_append, List.map_cons, List.sum_cons]
  have h := queueSize_children_lt node
  simp only [queueSize] at h
  omega

/-- The queue loop of `_find_first_value`: pop the front node, scan a dict
node's immediate keys against the whole candidate set, then append the
node's children to the back of the queue. -/
def findLoop (keys : List String) (queue : List JVal) : Option JVal :=
  match queue with
  | [] => none
  | node :: rest =>
    match scanNode keys node with
    | some v => some v
    | none => findLoop keys (rest ++ jChildren node)
termination_by queueSize queue
decreasing_by
  exact queueSize_step _ _

theorem jsize_pos (node : JVal) : 0 < jsize node := by
  cases node <;> simp [jsize]

/-- The same queue loop with explicit fuel, so that it evaluates inside the
kernel; `findLoopFuel_eq_findLoop` shows any fuel of at least the queue's
node count reproduces the unbounded loop. -/
def findLoopFuel (keys : List String) : Nat → List JVal → Option JVal
  | _, [] => none
  | 0, _ :: _ => none
  | fuel + 1, node :: rest =>
    match scanNode keys node with
    | some v => some v
    | none => findLoopFuel keys fuel (rest ++ jChildren node)

theorem findLoopFuel_eq_findLoop (keys : List String) (fuel : Nat) (queue : List JVal)
    (h : queueSize queue ≤ fuel) : findLoopFuel keys fuel queue = findLoop keys queue := by
  induction fuel generalizing queue with
  | zero =>
    cases queue with
    | nil => rw [findLoop]; rfl
    | cons node rest =>
      exfalso
      have h1 := jsize_pos node
      simp only [queueSize, List.map_cons, List.sum_cons] at h
      omega
  | succ fuel ih =>
    cases queue with
    | nil => rw [findLoop]; rfl
    | cons node rest =>
      rw [findLoop, findLoopFuel]
      cases hs : scanNode keys node with
      | some v => rfl
      | none =>
        have hstep := queueSize_step node rest
        exact ih (rest ++ jChildren node) (by omega)

/-- `BaiduLoginHandler._find_first_value`: breadth-first search over an
arbitrarily nested payload for the first candidate-key binding whose value
is neither `None` nor the empty string.  The fuel `jsize payload` bounds the
number of loop iterations (each iteration strictly shrinks the queue's node
count), so this equals the unbounded `while queue:` loop `findLoop`. -/
def findFirstValue (payload : JVal) (keys : List String) : Option JVal :=
  findLoopFuel keys (jsize payload) [payload]

theorem findFirstValue_eq_findLoop (payload : JVal) (keys : List String) :
    findFirstValue payload keys = findLoop keys [payload] := by
  apply findLoopFuel_eq_findLoop
  simp [queueSize]

theorem queueSize_flatMap_le (l : List JVal) :
    queueSize (l.flatMap jChildren) ≤ queueSize l := by
  induction l with
  | nil => simp [queueSize]
  | cons node rest ih =>
    simp only [List.flatMap_cons, queueSize, List.map_append, List.sum_append, List.map_cons,
      List.sum_cons] at *
    have h1 := queueSize_children_lt node
    simp only [queueSize] at h1
    omega

theorem queueSize_flatMap_lt (node : JVal) (rest : List JVal) :
    queueSize ((node :: rest).flatMap jChildren) < queueSize (node :: rest) := by
  simp only [List.flatMap_cons, queueSize, List.map_append, List.sum_append, List.map_cons,
    List.sum_cons]
  have h1 := queueSize_children_lt node
  have h2 := queueSize_flatMap_le rest
  simp only [queueSize] at h1 h2
  omega

/-- Level-by-level reference formulation of the breadth-first contract from
the spec (§4.1): scan every node of the current level against the whole
candidate set, and only if none matches descend into the concatenated
children of the level. -/
def firstMatchByLevels (keys : List String) (level : List JVal) : Option JVal :=
  match level with
  | [] => none
  | node :: rest =>
    match (node :: rest).findSome? (scanNode keys) with
    | some v => some v
    | none => firstMatchByLevels keys ((node :: rest).flatMap jChildren)
termination_by queueSize level
decreasing_by
  exact queueSize_flatMap_lt _ _

theorem findLoop_append (keys : List String) (l1 l2 : List JVal) :
    findLoop keys (l1 ++ l2) =
      match l1.findSome? (scanNode keys) with
      | some v => some v
      | none => findLoop keys (l2 ++ l1.flatMap jChildren) := by
  induction l1 generalizing l2 with
  | nil => simp [List.findSome?_nil]
  | cons node t ih =>
    rw [List.cons_append, findLoop]
    cases hs : scanNode keys node with
    | some v => simp [List.findSome?_cons, hs]
    | none =>
      simp only
      rw [List.append_assoc, ih (l2 ++ jChildren node)]
      simp only [List.findSome?_cons, hs, List.flatMap_cons]
      cases ht : t.findSome? (scanNode keys) with
      | some v => rfl
      | none => rw [List.append_assoc]

theorem findLoop_eq_firstMatchByLevels (keys : List String) (l : List JVal) :
    findLoop keys l = firstMatchByLevels keys l := by
  generalize hn : queueSize l = n
  induction n using Nat.strong_induction_on generalizing l with
  | _ n ih =>
    subst hn
    cases l with
    | nil => rw [findLoop, firstMatchByLevels]
    | cons node rest =>
      have hA := findLoop_append keys (node :: rest) []
      rw [List.append_nil] at hA
      rw [hA, firstMatchByLevels]
      cases hs : (node :: rest).findSome? (scanNode keys) with
      | some v => rfl
      | none =>
        simp only [List.nil_append]
        exact ih (queueSize ((node :: rest).flatMap jChildren))
          (queueSize_flatMap_lt node rest) _ rfl

mutual
/-- Whether some candidate key binds a non-`None`, non-empty value anywhere
in the tree, at any depth (spec formulation of "a matching key exists"). -/
def deepMatch (keys : List String) : JVal → Bool
  | .obj fields => (scanKeys keys fields).isSome || deepMatchF keys fields
  | .arr items => deepMatchA keys items
  | _ => false

def deepMatchF (keys : List String) : List (String × JVal) → Bool
  | [] => false
  | (_, v) :: rest => deepMatch keys v || deepMatchF keys rest

def deepMatchA (keys : List String) : List JVal → Bool
  | [] => false
  | v :: rest => deepMatch keys v || deepMatchA keys rest
end

theorem deepMatchF_eq_any (keys : List String) (fields : List (String × JVal)) :
    deepMatchF keys fields = (fields.map Prod.snd).any (deepMatch keys) := by
  induction fields with
  | nil => simp [deepMatchF]
  | cons p rest ih => cases p; simp [deepMatchF, ih]

theorem deepMatchA_eq_any (keys : List String) (items : List JVal) :
    deepMatchA keys items = items.any (deepMatch keys) := by
  induction items with
  | nil => simp [deepMatchA]
  | cons v rest ih => simp [deepMatchA, ih]

theorem deepMatch_unfold (keys : List String) (v : JVal) :
    deepMatch keys v = ((scanNode keys v).isSome || (jChildren v).any (deepMatch keys)) := by
  cases v with
  | obj fields => rw [deepMatch, deepMatchF_eq_any]; rfl
  | arr items => rw [deepMatch, deepMatchA_eq_any]; rfl
  | null => rfl
  | str s => rfl
  | num n => rfl
  | bool b => rfl

theorem firstMatchByLevels_none_iff (keys : List String) (l : List JVal) :
    firstMatchByLevels keys l = none ↔ ∀ v ∈ l, deepMatch keys v = false := by
  generalize hn : queueSize l = n
  induction n using Nat.strong_induction_on generalizing l with
  | _ n ih =>
    subst hn
    cases l with
    | nil => rw [firstMatchByLevels]; simp
    | cons node rest =>
      rw [firstMatchByLevels]
      cases hs : (node :: rest).findSome? (scanNode keys) with
      | some v =>
        simp only
        constructor
        · intro h; exact absurd h (by simp)
        · intro h
          obtain ⟨a, ha, hsa⟩ := List.exists_of_findSome?_eq_some hs
          have := h a ha
          rw [deepMatch_unfold, hsa] at this
          simp at this
      | none =>
        simp only
        rw [ih (queueSize ((node :: rest).flatMap jChildren)) (queueSize_flatMap_lt node rest) _ rfl]
        have hall := List.findSome?_eq_none_iff.mp hs
        constructor
        · intro h v hv
          rw [deepMatch_unfold, hall v hv]
          simp only [Option.isSome_none, Bool.false_or, List.any_eq_false]
          intro c hc
          simp [h c (List.mem_flatMap.mpr ⟨v, hv, hc⟩)]
        · intro h c hc
          obtain ⟨v, hv, hcv⟩ := List.mem_flatMap.mp hc
          have hvm := h v hv
          rw [deepMatch_unfold, hall v hv] at hvm
          simp only [Option.isSome_none, Bool.false_or, List.any_eq_false] at hvm
          simpa using hvm c hcv

/-! ### Python string primitives

`str.strip`, `str.lower` and the substring test `pat in s` are modelled over
character lists (ASCII lowering; whitespace per `Char.isWhitespace`), so that
every definition evaluates inside the kernel. -/

/-- ASCII lowering of one character (`str.lower`, restricted to ASCII). -/
def pyLowerChar (c : Char) : Char :=
  if 'A' ≤ c ∧ c ≤ 'Z' then Char.ofNat (c.toNat + 32) else c

/-- Python `s.lower()`. -/
def pyLower (s : String) : String := ⟨s.data.map pyLowerChar⟩

/-- Python `s.strip()`. -/
def pyStrip (s : String) : String :=
  ⟨((s.data.dropWhile Char.isWhitespace).reverse.dropWhile Char.isWhitespace).reverse⟩

/-- Substring occurrence over character lists. -/
def containsSub (hay pat : List Char) : Bool :=
  if pat.isPrefixOf hay then true
  else
    match hay with
    | [] => false
    | _ :: t => containsSub t pat

/-- Python `pat in s`. -/
def pyIn (pat s : String) : Bool := containsSub s.data pat.data

/-- Python truthiness of a `dict.get`-style result (`None` for an absent
key): `none` and JSON `null` are both Python `None`. -/
def optTruthy (a : Option JVal) : Bool := a.any jTruthy

/-- Python `a or b` on values read out of a payload. -/
def pyOrJ (a b : Option JVal) : Option JVal := if optTruthy a then a else b

/-- Python truthiness of an optional string (`if s:`). -/
def strOptTruthy (s : Option String) : Bool := s.any (· ≠ "")

/-- Python `a or b` on optional strings. -/
def pyOrStr (a b : Option String) : Option String := if strOptTruthy a then a else b

/-- Python `a or "default"` on an optional string. -/
def pyOrDefault (a : Option String) (d : String) : String :=
  match a with
  | some s => if s = "" then d else s
  | none => d

/-- `BaiduLoginHandler._safe_str`: `None` stays `None`; anything else is
stringified and stripped, and a blank result becomes `None`.  JSON `null`
is Python `None`. -/
def safeStr (value : Option JVal) : Option String :=
  match value with
  | none => none
  | some .null => none
  | some v =>
    let text := pyStrip (pyStr v)
    if text = "" then none else some text

/-! ### HTTP responses and body decoding

An `httpx.Response` is modelled by the features the handler reads: the
status code, the `BDUSS` value of the direct cookie jar (`None`/empty
possible), the `BDUSS` value parsed out of each `Set-Cookie` header (one
entry per header; `none` when the header has no `BDUSS` morsel), whether the
`Content-Type` says JSON, the result of attempting to JSON-parse the body
(`none` when parsing raises `ValueError`) and the raw body text. -/

structure HttpResponse where
  statusCode : Nat
  cookieBduss : Option String := none
  setCookieBduss : List (Option String) := []
  contentTypeJson : Bool := true
  jsonParsed : Option JVal := none
  text : String := ""

/-- `BaiduLoginHandler._decode_response_body`: prefer JSON when the content
type says so, otherwise best-effort JSON parse of the text (an empty text
decodes to `{}`), falling back to the raw text. -/
def decodeResponseBody (r : HttpResponse) : JVal :=
  if r.contentTypeJson then
    match r.jsonParsed with
    | some v => v
    | none => .str r.text
  else if r.text = "" then .obj []
  else
    match r.jsonParsed with
    | some v => v
    | none => .str r.text

/-! ### Response classification -/

/-- `BaiduLoginHandler._extract_bduss`: direct cookie jar first, then the
`Set-Cookie` header values, then the body fields `BDUSS`/`bduss`/`bdus`. -/
def extractBduss (response : HttpResponse) (payload : JVal) : Option String :=
  if strOptTruthy response.cookieBduss then response.cookieBduss
  else
    match response.setCookieBduss.findSome? id with
    | some v => some v
    | none =>
      match payload with
      | .obj _ =>
        match findFirstValue payload ["BDUSS", "bduss", "bdus"] with
        | some v =>
          let valueStr := pyStrip (pyStr v)
          if valueStr = "" then none else some valueStr
        | none => none
      | _ => none

/-- The `errInfo.msg` / `errInfo.message` fallback of
`BaiduLoginHandler._extract_message`. -/
def errInfoMsg (fields : List (String × JVal)) : Option String :=
  match dGet fields "errInfo" with
  | some (.obj ef) =>
    match pyOrJ (dGet ef "msg") (dGet ef "message") with
    | some v => if jTruthy v then some (pyStr v) else none
    | none => none
  | _ => none

/-- `BaiduLoginHandler._extract_message`. -/
def extractMessage (payload : JVal) : Option String :=
  match payload with
  | .obj fields =>
    match findFirstValue payload ["msg", "errmsg", "errMsg", "message", "tips", "error_msg", "errorMsg"] with
    | some m =>
      let text := pyStrip (pyStr m)
      if text = "" then errInfoMsg fields else some text
    | none => errInfoMsg fields
  | .str s => if s = "" then none else some s
  | _ => none

/-- `BaiduLoginHandler._extract_error_code`. -/
def extractErrorCode (payload : JVal) : Option String :=
  match payload with
  | .obj fields =>
    match findFirstValue payload ["errno", "errNo", "err_no", "code", "error", "error_code"] with
    | some c => some (pyStr c)
    | none =>
      match dGet fields "errInfo" with
      | some (.obj ef) =>
        match dGet ef "no" with
        | some .null => none
        | some v => some (pyStr v)
        | none => none
      | _ => none
  | _ => none

/-- `BaiduLoginHandler._is_success_payload`. -/
def isSuccessPayload (payload : JVal) : Bool :=
  match payload with
  | .obj fields =>
    let errno := safeStr (findFirstValue payload ["errno", "errNo", "err_no", "code", "no"])
    if errno = some "0" ∨ errno = some "success" ∨ errno = some "ok" then true
    else
      match dGet fields "errInfo" with
      | some (.obj ef) =>
        let no := safeStr (dGet ef "no")
        no = some "0" ∨ no = some "success" ∨ no = some "ok"
      | _ => false
  | _ => false

/-- `CAPTCHA_HINT_CODES`. -/
def captchaHintCodes : List String := ["6", "120021", "500002", "500018", "401023"]

/-- `BaiduLoginHandler._is_captcha_required`. -/
def isCaptchaRequired (payload : JVal) : Bool :=
  match payload with
  | .obj _ =>
    if optTruthy (findFirstValue payload
        ["vcodestr", "verifycode", "codeString", "codestring", "captcha", "captchaUrl"]) then
      true
    else if (extractErrorCode payload).any (· ∈ captchaHintCodes) then true
    else
      let message := pyLower (pyOrDefault (extractMessage payload) "")
      pyIn "验证码" message || pyIn "captcha" message
  | .str s => pyIn "验证码" s || pyIn "captcha" (pyLower s)
  | _ => false

/-- `CaptchaChallenge`. -/
structure CaptchaChallenge where
  vcodestr : Option String := none
  code_string : Option String := none
  captcha_url : Option String := none
  prompt : Option String := none
  error_code : Option String := none
  raw : List (String × JVal) := []

/-- `BaiduLoginHandler._extract_captcha_challenge`. -/
def extractCaptchaChallenge (payload : JVal) : CaptchaChallenge :=
  match payload with
  | .obj fields =>
    { vcodestr := safeStr (findFirstValue payload ["vcodestr"])
      code_string := safeStr (findFirstValue payload ["codeString", "codestring", "code_string"])
      captcha_url := safeStr (findFirstValue payload ["captchaUrl", "captcha_url", "img", "imgUrl"])
      prompt := some (pyOrDefault (extractMessage payload) "需要验证码")
      error_code := extractErrorCode payload
      raw := fields }
  | _ => { prompt := some "需要验证码", raw := [] }

/-- The tag of `_ResponseAnalysis.status`. -/
inductive AnalysisStatus where
  | success
  | failed
  | captchaRequired
  deriving DecidableEq

/-- `_ResponseAnalysis`. -/
structure ResponseAnalysis where
  status : AnalysisStatus
  message : String
  error_code : Option String
  bduss : Option String
  captcha_challenge : Option CaptchaChallenge

/-- `BaiduLoginHandler._analyze_login_response` (the Response Classifier):
captcha detection is checked first, then the extracted `BDUSS`, then an
explicit success payload, with `failed` as the default. -/
def analyzeLoginResponse (response : HttpResponse) (payload : JVal) : ResponseAnalysis :=
  let bduss := extractBduss response payload
  if isCaptchaRequired payload then
    { status := .captchaRequired
      message := pyOrDefault (extractMessage payload) "需要验证码"
      error_code := extractErrorCode payload
      bduss := bduss
      captcha_challenge := some (extractCaptchaChallenge payload) }
  else if strOptTruthy bduss then
    { status := .success
      message := "登录成功"
      error_code := none
      bduss := bduss
      captcha_challenge := none }
  else if isSuccessPayload payload then
    { status := .success
      message := pyOrDefault (extractMessage payload) "登录成功"
      error_code := none
      bduss := none
      captcha_challenge := none }
  else
    { status := .failed
      message := pyOrDefault (extractMessage payload) ("登录失败，HTTP " ++ toString response.statusCode)
      error_code := extractErrorCode payload
      bduss := none
      captcha_challenge := none }

/-! ### Retry/Backoff Engine -/

/-- `RetryPolicy` (`max_attempts`, `backoff_seconds`, `max_backoff_seconds`);
float durations are rationals. -/
structure RetryPolicy where
  max_attempts : Nat := 3
  backoff_seconds : Rat := 1/2
  max_backoff_seconds : Rat := 4

/-- `RETRYABLE_HTTP_STATUS`. -/
def retryableHttpStatus : List Nat := [429, 500, 502, 503, 504]

/-- `BaiduLoginHandler._retry_delay`: exponential backoff capped at
`max_backoff_seconds`. -/
def retryDelay (policy : RetryPolicy) (attempt : Nat) : Rat :=
  min (policy.backoff_seconds * 2 ^ (attempt - 1)) policy.max_backoff_seconds

/-- Outcome of one HTTP attempt: an `httpx.RequestError`, or a response. -/
inductive AttemptOutcome where
  | transportError (e : String)
  | response (r : HttpResponse)

/-- The message of the `BaiduLoginRequestError` raised after retries. -/
def retryFailMsg (method url : String) (lastError : Option String) : String :=
  "请求失败，已达到最大重试次数: " ++ method ++ " " ++ url ++ ", error=" ++
    (match lastError with
     | none => "None"
     | some e => e)

/-- The attempt loop of `BaiduLoginHandler._request_with_retry`, instrumented
with the list of backoff delays slept.  `outcomes n` is what the `n`-th
attempt (1-indexed) of the underlying `httpx` request produces; the fuel is
the number of loop iterations left (`max_attempts` at entry, so the loop
runs attempts `1..max_attempts` exactly as `range(1, max_attempts+1)`). -/
def requestWithRetryAux (policy : RetryPolicy) (method url : String)
    (outcomes : Nat → AttemptOutcome) (lastError : Option String) (attempt : Nat) :
    (fuel : Nat) → Except String HttpResponse × List Rat
  | 0 => (.error (retryFailMsg method url lastError), [])
  | fuel + 1 =>
    match outcomes attempt with
    | .transportError e =>
      if policy.max_attempts ≤ attempt then (.error (retryFailMsg method url (some e)), [])
      else
        let rest := requestWithRetryAux policy method url outcomes (some e) (attempt + 1) fuel
        (rest.1, retryDelay policy attempt :: rest.2)
    | .response r =>
      if r.statusCode ∈ retryableHttpStatus ∧ attempt < policy.max_attempts then
        let rest := requestWithRetryAux policy method url outcomes lastError (attempt + 1) fuel
        (rest.1, retryDelay policy attempt :: rest.2)
      else (.ok r, [])

/-- `BaiduLoginHandler._request_with_retry`: result plus the backoff delays
it slept, in order. -/
def requestWithRetry (policy : RetryPolicy) (method url : String)
    (outcomes : Nat → AttemptOutcome) : Except String HttpResponse × List Rat :=
  requestWithRetryAux policy method url outcomes none 1 policy.max_attempts

/-! ### Anti-Replay Token Fetcher -/

/-- `AntiReplayToken`. -/
structure AntiReplayToken where
  token : Option String := none
  servertime : Option String := none
  raw : List (String × JVal) := []

/-- `BaiduLoginHandler._fetch_antireplay_token`, applied to the response the
retried GET produced (`.error` models the raised `BaiduLoginRequestError`). -/
def fetchAntireplayToken (response : HttpResponse) : Except String AntiReplayToken :=
  if 400 ≤ response.statusCode then
    .error ("获取 antireplaytoken 失败，HTTP " ++ toString response.statusCode)
  else
    let payload := decodeResponseBody response
    match payload with
    | .obj fields =>
      let errno := safeStr (findFirstValue payload ["errno", "errNo", "err_no", "code"])
      if errno = none ∨ errno = some "" ∨ errno = some "0" ∨ errno = some "success" then
        .ok { token := safeStr (findFirstValue payload ["antireplaytoken", "token", "tk"])
              servertime := safeStr (findFirstValue payload ["servertime", "serverTime", "server_time"])
              raw := fields }
      else
        let message := pyOrDefault (safeStr (findFirstValue payload ["msg", "errmsg", "message", "errMsg"])) "未知错误"
        .error ("antireplaytoken 返回错误: " ++ (errno.getD "None") ++ ", " ++ message)
    | _ => .error "antireplaytoken 响应非 JSON 对象"

/-! ### Dict operations

Python `dict` operations over insertion-ordered association lists with
unique keys: lookup takes the first binding, update overwrites in place or
appends, `setdefault` only appends. -/

/-- `key in d`. -/
def dMem {α : Type} (d : List (String × α)) (key : String) : Bool := d.any (·.1 = key)

/-- `d[key] = v`. -/
def dSet {α : Type} (d : List (String × α)) (key : String) (v : α) : List (String × α) :=
  if dMem d key then d.map (fun p => if p.1 = key then (p.1, v) else p) else d ++ [(key, v)]

/-- `d.update(upd)`. -/
def dUpdate {α : Type} (d upd : List (String × α)) : List (String × α) :=
  upd.foldl (fun acc p => dSet acc p.1 p.2) d

/-- `d.setdefault(key, v)`. -/
def dSetdefault {α : Type} (d : List (String × α)) (key : String) (v : α) : List (String × α) :=
  if dMem d key then d else d ++ [(key, v)]

/-- `d.get(key)` on a generic association list. -/
def dLookup {α : Type} (d : List (String × α)) (key : String) : Option α :=
  match d with
  | [] => none
  | (k, v) :: rest => if k = key then some v else dLookup rest key

/-! ### Login Form Builder -/

/-- `EncryptedLoginParams` (the credential bundle from the JSRPC client);
every field is `str | None`, extras values are `Option String` (`none` for
Python `None`, `some s` for a value stringifying to `s`). -/
structure EncryptedLoginParams where
  password : Option String := none
  username : Option String := none
  k : Option String := none
  s : Option String := none
  ds : Option String := none
  tk : Option String := none
  sig : Option String := none
  sha_one : Option String := none
  servertime : Option String := none
  fuid : Option String := none
  gid : Option String := none
  session_id : Option String := none
  baidu_id : Option String := none
  raw_body : Option String := none
  extras : List (String × Option String) := []

/-- The initial dict literal of `_build_login_form_data` followed by
`form_data.update(encrypted_params.extras)`. -/
def formDataInitial (params : EncryptedLoginParams) : List (String × Option String) :=
  dUpdate
    [("password", params.password), ("username", params.username), ("k", params.k),
     ("s", params.s), ("ds", params.ds), ("tk", params.tk), ("sig", params.sig),
     ("shaOne", params.sha_one), ("servertime", params.servertime), ("fuid", params.fuid),
     ("gid", params.gid), ("session_id", params.session_id), ("baiduId", params.baidu_id)]
    params.extras

/-- The anti-replay `setdefault` step of `_build_login_form_data`: token and
servertime are added only where the key is absent. -/
def formDataWithAntiReplay (formData : List (String × Option String))
    (antiReplay : AntiReplayToken) : List (String × Option String) :=
  let fd :=
    if strOptTruthy antiReplay.token then
      dSetdefault (dSetdefault formData "token" antiReplay.token) "antireplaytoken" antiReplay.token
    else formData
  if strOptTruthy antiReplay.servertime then dSetdefault fd "servertime" antiReplay.servertime
  else fd

/-- `BaiduLoginHandler._build_login_form_data`: credential fields and extras,
anti-replay `setdefault`s, caller extras last, then drop `None`/empty
values and stringify. -/
def buildLoginFormData (params : EncryptedLoginParams) (antiReplay : AntiReplayToken)
    (extraFormData : Option (List (String × Option String))) : List (String × String) :=
  let formData := formDataInitial params
  let formData := formDataWithAntiReplay formData antiReplay
  let formData :=
    match extraFormData with
    | some extra => if extra.isEmpty then formData else dUpdate formData extra
    | none => formData
  formData.filterMap fun p =>
    match p.2 with
    | some v => if v = "" then none else some (p.1, v)
    | none => none

/-- `CaptchaSolution`. -/
structure CaptchaSolution where
  verifycode : String
  vcodestr : Option String := none
  extras : List (String × String) := []

/-- `BaiduLoginHandler._merge_captcha_solution`: a fresh form with the
verification code set, the code string (from the solution, else the
challenge) under both wire names, and the solution's non-empty extras. -/
def mergeCaptchaSolution (baseFormData : List (String × String))
    (challenge : CaptchaChallenge) (solution : CaptchaSolution) : List (String × String) :=
  let formData := dSet baseFormData "verifycode" solution.verifycode
  let codeStr := pyOrStr (pyOrStr solution.vcodestr challenge.vcodestr) challenge.code_string
  let formData :=
    match codeStr with
    | some c => if c = "" then formData else dSet (dSet formData "vcodestr" c) "codeString" c
    | none => formData
  solution.extras.foldl (fun acc p => if p.2 = "" then acc else dSet acc p.1 p.2) formData

/-! ### Challenge callback normalization -/

/-- The value a challenge-solver callback returned (after awaiting):
`None`, a `CaptchaSolution`, a plain string, a string-keyed mapping (values
`Option String`: `none` for Python `None`), or a value of any other,
unsupported type. -/
inductive CallbackRaw where
  | nothing
  | solution (s : CaptchaSolution)
  | str (s : String)
  | mapping (m : List (String × Option String))
  | unsupported

/-- `raw.get(key)` on a callback mapping (absent and `None` coincide). -/
def mGet (m : List (String × Option String)) (key : String) : Option String :=
  match dLookup m key with
  | some v => v
  | none => none

/-- `BaiduLoginHandler._invoke_captcha_callback`: normalize the callback's
return value; `.ok none` is "no usable answer", `.error` models the raised
`BaiduLoginHandlerError` for an unsupported type. -/
def invokeCaptchaCallback (raw : CallbackRaw) (challenge : CaptchaChallenge) :
    Except String (Option CaptchaSolution) :=
  match raw with
  | .nothing => .ok none
  | .solution s => if s.verifycode = "" then .ok none else .ok (some s)
  | .str s =>
    let code := pyStrip s
    if code = "" then .ok none
    else .ok (some { verifycode := code
                     vcodestr := pyOrStr challenge.vcodestr challenge.code_string })
  | .mapping m =>
    let verifycode := pyStrip ((pyOrStr (mGet m "verifycode") (mGet m "code")).getD "")
    if verifycode = "" then .ok none
    else
      let vcodestr := pyOrStr (pyOrStr (mGet m "vcodestr") (mGet m "code_string")) challenge.vcodestr
      .ok (some { verifycode := verifycode
                  vcodestr := if strOptTruthy vcodestr then vcodestr else none
                  extras := m.filterMap fun p =>
                    if p.1 ∈ (["verifycode", "code", "vcodestr", "code_string"] : List String) then none
                    else
                      match p.2 with
                      | some v => some (p.1, v)
                      | none => none })
  | .unsupported => .error "验证码回调返回类型不受支持"

/-! ### Login Orchestrator -/

/-- `LoginResult.status`. -/
inductive LoginStatus where
  | success
  | failed
  | captchaRequired
  | error
  deriving DecidableEq

/-- `LoginResult`. -/
structure LoginResult where
  status : LoginStatus
  message : String
  success : Bool
  bduss : Option String := none
  error_code : Option String := none
  response : Option JVal := none
  captcha_challenge : Option CaptchaChallenge := none

/-- The exceptions `login` catches: `BaiduLoginClientError` from the JSRPC
collaborator, and `BaiduLoginHandlerError` (including its subclass
`BaiduLoginRequestError`) from the handler itself. -/
inductive LoginExc where
  | clientError (msg : String)
  | handlerError (msg : String)

/-- The environment of one `login()` call: what the JSRPC collaborator
returns, what the retried anti-replay GET produces, what the `n`-th login
POST produces (`n = 0` is the initial submission, `n ≥ 1` the challenge
resubmissions), and what the `j`-th callback invocation returns
(0-indexed). -/
structure LoginEnv where
  jsrpcResult : Except String EncryptedLoginParams
  antiReplayResponse : Except String HttpResponse
  loginResponses : Nat → Except String HttpResponse
  callbackResults : Nat → CallbackRaw

/-- The challenge retry loop of `BaiduLoginHandler.login`
(`for attempt in range(1, max_captcha_attempts + 1)`), instrumented with
the list of resubmitted forms.  `formData` stays the initial form
throughout; `remaining` counts the loop iterations left. -/
def loginCaptchaLoop (env : LoginEnv) (formData : List (String × String))
    (challenge : CaptchaChallenge) (payload : JVal) (attempt : Nat) :
    (remaining : Nat) → Except String (LoginResult × List (List (String × String)))
  | 0 => .ok
      ({ status := .captchaRequired, message := "验证码重试次数耗尽", success := false,
         error_code := some "captcha_attempts_exhausted", response := some payload,
         captcha_challenge := some challenge }, [])
  | remaining + 1 =>
    match invokeCaptchaCallback (env.callbackResults (attempt - 1)) challenge with
    | .error e => .error e
    | .ok none => .ok
        ({ status := .captchaRequired, message := "验证码回调未返回有效结果", success := false,
           error_code := some "captcha_callback_empty", response := some payload,
           captcha_challenge := some challenge }, [])
    | .ok (some solution) =>
      let formWithCaptcha := mergeCaptchaSolution formData challenge solution
      match env.loginResponses attempt with
      | .error e => .error e
      | .ok response =>
        let payload2 := decodeResponseBody response
        let analysis := analyzeLoginResponse response payload2
        match analysis.status with
        | .success => .ok
            ({ status := .success, message := analysis.message, success := true,
               bduss := analysis.bduss, response := some payload2 }, [formWithCaptcha])
        | .failed => .ok
            ({ status := .failed, message := analysis.message, success := false,
               error_code := analysis.error_code, response := some payload2 }, [formWithCaptcha])
        | .captchaRequired =>
          let challenge2 := analysis.captcha_challenge.getD challenge
          match loginCaptchaLoop env formData challenge2 payload2 (attempt + 1) remaining with
          | .ok (result, forms) => .ok (result, formWithCaptcha :: forms)
          | .error e => .error e

/-- The body of `BaiduLoginHandler.login` after input validation (the `try`
block): JSRPC, anti-replay token, initial form, first submission and
classification, then the captcha branch.  The second component is the list
of every submitted form, in order. -/
def loginRun (env : LoginEnv) (hasCallback : Bool) (maxCaptchaAttempts : Int)
    (extraFormData : Option (List (String × Option String))) :
    Except LoginExc (LoginResult × List (List (String × String))) :=
  match env.jsrpcResult with
  | .error e => .error (.clientError e)
  | .ok encryptedParams =>
    match env.antiReplayResponse with
    | .error e => .error (.handlerError e)
    | .ok antiResp =>
      match fetchAntireplayToken antiResp with
      | .error e => .error (.handlerError e)
      | .ok antiReplay =>
        let formData := buildLoginFormData encryptedParams antiReplay extraFormData
        match env.loginResponses 0 with
        | .error e => .error (.handlerError e)
        | .ok response =>
          let payload := decodeResponseBody response
          let analysis := analyzeLoginResponse response payload
          match analysis.status with
          | .success => .ok
              ({ status := .success, message := analysis.message, success := true,
                 bduss := analysis.bduss, response := some payload }, [formData])
          | .failed => .ok
              ({ status := .failed, message := analysis.message, success := false,
                 error_code := analysis.error_code, response := some payload }, [formData])
          | .captchaRequired =>
            let challenge := analysis.captcha_challenge.getD { prompt := some "需要验证码", raw := [] }
            if hasCallback then
              match loginCaptchaLoop env formData challenge payload 1 maxCaptchaAttempts.toNat with
              | .ok (result, forms) => .ok (result, formData :: forms)
              | .error e => .error (.handlerError e)
            else .ok
                ({ status := .captchaRequired, message := analysis.message, success := false,
                   error_code := analysis.error_code, response := some payload,
                   captcha_challenge := some challenge }, [formData])

/-- `BaiduLoginHandler.login`, instrumented with the submitted forms: input
validation, then the `try` body, with `BaiduLoginClientError` and
`BaiduLoginHandlerError` translated into `error`-tagged results. -/
def loginWithTrace (env : LoginEnv) (username password : String) (hasCallback : Bool)
    (maxCaptchaAttempts : Int) (extraFormData : Option (List (String × Option String))) :
    LoginResult × List (List (String × String)) :=
  if pyStrip username = "" then
    ({ status := .error, message := "username 不能为空", success := false,
       error_code := some "invalid_username" }, [])
  else if password = "" then
    ({ status := .error, message := "password 不能为空", success := false,
       error_code := some "invalid_password" }, [])
  else if maxCaptchaAttempts ≤ 0 then
    ({ status := .error, message := "max_captcha_attempts 必须大于 0", success := false,
       error_code := some "invalid_captcha_attempts" }, [])
  else
    match loginRun env hasCallback maxCaptchaAttempts extraFormData with
    | .ok r => r
    | .error (.clientError e) =>
      ({ status := .error, message := "JSRPC 处理失败: " ++ e, success := false,
         error_code := some "jsrpc_error" }, [])
    | .error (.handlerError e) =>
      ({ status := .error, message := e, success := false,
         error_code := some "handler_error" }, [])

/-- `BaiduLoginHandler.login`: the terminal `LoginResult`. -/
def login (env : LoginEnv) (username password : String) (hasCallback : Bool)
    (maxCaptchaAttempts : Int) (extraFormData : Option (List (String × Option String))) :
    LoginResult :=
  (loginWithTrace env username password hasCallback maxCaptchaAttempts extraFormData).1

/-! ### Retry engine lemmas -/

theorem retryAux_trace_shape (policy : RetryPolicy) (method url : String)
    (outcomes : Nat → AttemptOutcome) :
    ∀ (fuel attempt : Nat) (lastError : Option String),
      ∃ k, (requestWithRetryAux policy method url outcomes lastError attempt fuel).2 =
        (List.range k).map (fun j => retryDelay policy (attempt + j)) := by
  intro fuel
  induction fuel with
  | zero => intro attempt lastError; exact ⟨0, by simp [requestWithRetryAux]⟩
  | succ fuel ih =>
    intro attempt lastError
    cases ho : outcomes attempt with
    | transportError e =>
      by_cases hm : policy.max_attempts ≤ attempt
      · exact ⟨0, by simp [requestWithRetryAux, ho, hm]⟩
      · obtain ⟨k, hk⟩ := ih (attempt + 1) (some e)
        refine ⟨k + 1, ?_⟩
        simp only [requestWithRetryAux, ho, if_neg hm]
        rw [hk, List.range_succ_eq_map]
        simp only [List.map_cons, List.map_map, Nat.add_zero]
        refine congrArg (List.cons _) (List.map_congr_left fun j hj => ?_)
        simp only [Function.comp_apply]
        congr 1
        omega
    | response r =>
      by_cases hr : r.statusCode ∈ retryableHttpStatus ∧ attempt < policy.max_attempts
      · obtain ⟨k, hk⟩ := ih (attempt + 1) lastError
        refine ⟨k + 1, ?_⟩
        simp only [requestWithRetryAux, ho, if_pos hr]
        rw [hk, List.range_succ_eq_map]
        simp only [List.map_cons, List.map_map, Nat.add_zero]
        refine congrArg (List.cons _) (List.map_congr_left fun j hj => ?_)
        simp only [Function.comp_apply]
        congr 1
        omega
      · exact ⟨0, by simp [requestWithRetryAux, ho, if_neg hr]⟩

/-- Whether the engine's `n`-th attempt produced a retryable outcome (a
transport error or a retryable status code). -/
def attemptRetries (outcomes : Nat → AttemptOutcome) (k : Nat) : Bool :=
  match outcomes k with
  | .transportError _ => true
  | .response r => decide (r.statusCode ∈ retryableHttpStatus)

theorem retryAux_ok (policy : RetryPolicy) (method url : String)
    (outcomes : Nat → AttemptOutcome) (n : Nat) (r : HttpResponse)
    (hresp : outcomes n = .response r)
    (hstop : ¬(r.statusCode ∈ retryableHttpStatus ∧ n < policy.max_attempts)) :
    ∀ (fuel attempt : Nat) (lastError : Option String), attempt ≤ n →
      n ≤ policy.max_attempts →
      (∀ k, attempt ≤ k → k < n → attemptRetries outcomes k = true) →
      fuel + attempt = policy.max_attempts + 1 →
      (requestWithRetryAux policy method url outcomes lastError attempt fuel).1 = .ok r := by
  intro fuel
  induction fuel with
  | zero => intro attempt lastError h1 h2 h3 h4; omega
  | succ fuel ih =>
    intro attempt lastError h1 h2 h3 h4
    by_cases ha : attempt = n
    · subst ha
      simp only [requestWithRetryAux, hresp, if_neg hstop]
    · have haln : attempt < n := lt_of_le_of_ne h1 ha
      have hr := h3 attempt le_rfl haln
      cases ho : outcomes attempt with
      | transportError e =>
        have hm : ¬ policy.max_attempts ≤ attempt := by omega
        simp only [requestWithRetryAux, ho, if_neg hm]
        exact ih (attempt + 1) (some e) (by omega) h2 (fun k hk1 hk2 => h3 k (by omega) hk2)
          (by omega)
      | response r2 =>
        simp only [attemptRetries, ho, decide_eq_true_eq] at hr
        have hcond : r2.statusCode ∈ retryableHttpStatus ∧ attempt < policy.max_attempts :=
          ⟨hr, by omega⟩
        simp only [requestWithRetryAux, ho, if_pos hcond]
        exact ih (attempt + 1) lastError (by omega) h2 (fun k hk1 hk2 => h3 k (by omega) hk2)
          (by omega)

theorem retryAux_err (policy : RetryPolicy) (method url : String)
    (outcomes : Nat → AttemptOutcome) (e : String)
    (hlast : outcomes policy.max_attempts = .transportError e) :
    ∀ (fuel attempt : Nat) (lastError : Option String), 1 ≤ attempt →
      attempt ≤ policy.max_attempts →
      (∀ k, attempt ≤ k → k < policy.max_attempts → attemptRetries outcomes k = true) →
      fuel + attempt = policy.max_attempts + 1 →
      (requestWithRetryAux policy method url outcomes lastError attempt fuel).1 =
        .error (retryFailMsg method url (some e)) := by
  intro fuel
  induction fuel with
  | zero => intro attempt lastError h0 h1 h2 h3; omega
  | succ fuel ih =>
    intro attempt lastError h0 h1 h2 h3
    by_cases ha : attempt = policy.max_attempts
    · subst ha
      simp only [requestWithRetryAux, hlast, if_pos le_rfl]
    · have haln : attempt < policy.max_attempts := lt_of_le_of_ne h1 ha
      have hr := h2 attempt le_rfl haln
      cases ho : outcomes attempt with
      | transportError e2 =>
        have hm : ¬ policy.max_attempts ≤ attempt := by omega
        simp only [requestWithRetryAux, ho, if_neg hm]
        exact ih (attempt + 1) (some e2) (by omega) (by omega)
          (fun k hk1 hk2 => h2 k (by omega) hk2) (by omega)
      | response r2 =>
        simp only [attemptRetries, ho, decide_eq_true_eq] at hr
        have hcond : r2.statusCode ∈ retryableHttpStatus ∧ attempt < policy.max_attempts :=
          ⟨hr, haln⟩
        simp only [requestWithRetryAux, ho, if_pos hcond]
        exact ih (attempt + 1) lastError (by omega) (by omega)
          (fun k hk1 hk2 => h2 k (by omega) hk2) (by omega)

/-! ### Claim theorems -/

/-- C7: the Nested Field Extractor returns the first value in breadth-first
order — scanning all immediate keys of a map node against the whole
candidate set before descending into any child — whose key is a candidate
and whose value is neither null nor the empty string (equivalence with the
level-by-level reference `firstMatchByLevels`), and it returns nothing
exactly when no candidate key binds such a value at any depth
(`deepMatch`).  Totality (the Python loop "never raises" and terminates on
the closed trees of this wire format) is witnessed by `findFirstValue`
being a total function equal to the unbounded queue loop `findLoop`. -/
theorem nested_field_extractor_contract (payload : JVal) (keys : List String) :
    findFirstValue payload keys = firstMatchByLevels keys [payload]
    ∧ (findFirstValue payload keys = none ↔ deepMatch keys payload = false) := by
  have h1 := findFirstValue_eq_findLoop payload keys
  have h2 := findLoop_eq_firstMatchByLevels keys [payload]
  refine ⟨by rw [h1, h2], ?_⟩
  rw [h1, h2, firstMatchByLevels_none_iff]
  simp

/-- C3: for a policy with `backoff_seconds = b ≥ 0` and
`max_backoff_seconds = c > 0`, the delay the engine sleeps before attempt
`n` (`2 ≤ n ≤ max_attempts`) — entry `n - 2` of the instrumented sleep
trace, which records the sleep taken after each non-final retried attempt —
equals `min (b * 2 ^ (n - 2)) c`, and that delay is monotonically
non-decreasing in `n`. -/
theorem retry_backoff_delay (policy : RetryPolicy) (method url : String)
    (outcomes : Nat → AttemptOutcome) (n : Nat)
    (hb : 0 ≤ policy.backoff_seconds) (hc : 0 < policy.max_backoff_seconds)
    (h2 : 2 ≤ n) (hm : n ≤ policy.max_attempts) :
    (∀ h : n - 2 < (requestWithRetry policy method url outcomes).2.length,
        (requestWithRetry policy method url outcomes).2.get ⟨n - 2, h⟩ =
          min (policy.backoff_seconds * 2 ^ (n - 2)) policy.max_backoff_seconds)
    ∧ min (policy.backoff_seconds * 2 ^ (n - 2)) policy.max_backoff_seconds ≤
        min (policy.backoff_seconds * 2 ^ (n - 1)) policy.max_backoff_seconds := by
  constructor
  · intro h
    obtain ⟨k, hk⟩ := retryAux_trace_shape policy method url outcomes policy.max_attempts 1 none
    have hreq : (requestWithRetry policy method url outcomes).2 =
        (List.range k).map (fun j => retryDelay policy (1 + j)) := hk
    simp only [List.get_eq_getElem, hreq, List.getElem_map]
    have hlen : n - 2 < k := by
      have := h
      rw [hreq] at this
      simpa using this
    rw [List.getElem_range]
    unfold retryDelay
    have he : 1 + (n - 2) - 1 = n - 2 := by omega
    rw [he]
  · refine min_le_min ?_ le_rfl
    apply mul_le_mul_of_nonneg_left _ hb
    exact pow_le_pow_right₀ (by norm_num) (by omega)

/-- C3 witness: policy `(m, b, c) = (3, 1/2, 4)`, every attempt a retryable
503; the sleep before attempt 3 is `min (1/2 * 2) 4 = 1`. -/
theorem retry_backoff_delay_witness :
    (requestWithRetry { max_attempts := 3, backoff_seconds := 1/2, max_backoff_seconds := 4 }
        "GET" "https://example" (fun _ => .response { statusCode := 503 })).2.get
      ⟨3 - 2, by decide⟩ =
      min ((1/2 : Rat) * 2 ^ (3 - 2)) 4 :=
  (retry_backoff_delay
    { max_attempts := 3, backoff_seconds := 1/2, max_backoff_seconds := 4 }
    "GET" "https://example" (fun _ => .response { statusCode := 503 }) 3
    (by norm_num) (by norm_num) (by norm_num) (by norm_num)).1 (by decide)

/-- C4: the engine retries exactly while attempts remain and the outcome is
a transport error or a status in `{429, 500, 502, 503, 504}`; any other
response — including a retryable status on the final attempt — is returned
immediately and uninterpreted, and a transport failure on the final attempt
raises the fatal "request failed after retries" error wrapping the last
transport error. -/
theorem retry_engine_contract (policy : RetryPolicy) (method url : String)
    (outcomes : Nat → AttemptOutcome) (hpos : 1 ≤ policy.max_attempts) :
    (∀ (n : Nat) (r : HttpResponse), 1 ≤ n → n ≤ policy.max_attempts →
        (∀ k, 1 ≤ k → k < n → attemptRetries outcomes k = true) →
        outcomes n = .response r →
        ¬(r.statusCode ∈ retryableHttpStatus ∧ n < policy.max_attempts) →
        (requestWithRetry policy method url outcomes).1 = .ok r)
    ∧ (∀ e : String,
        (∀ k, 1 ≤ k → k < policy.max_attempts → attemptRetries outcomes k = true) →
        outcomes policy.max_attempts = .transportError e →
        (requestWithRetry policy method url outcomes).1 =
          .error (retryFailMsg method url (some e))) := by
  constructor
  · intro n r h1 h2 h3 hresp hstop
    exact retryAux_ok policy method url outcomes n r hresp hstop policy.max_attempts 1 none
      h1 h2 h3 (by omega)
  · intro e h3 hlast
    exact retryAux_err policy method url outcomes e hlast policy.max_attempts 1 none
      le_rfl hpos h3 (by omega)

/-- C4 witness: with `max_attempts = 3`, HTTP 503 on attempts 1 and 2 and
HTTP 200 on attempt 3, the engine returns the 200 response. -/
theorem retry_engine_contract_witness :
    (requestWithRetry { max_attempts := 3, backoff_seconds := 1/2, max_backoff_seconds := 4 }
        "GET" "https://example"
        (fun n => if n ≤ 2 then .response { statusCode := 503 }
                  else .response { statusCode := 200 })).1 =
      .ok { statusCode := 200 } :=
  (retry_engine_contract
      { max_attempts := 3, backoff_seconds := 1/2, max_backoff_seconds := 4 }
      "GET" "https://example"
      (fun n => if n ≤ 2 then .response { statusCode := 503 }
                else .response { statusCode := 200 }) (by norm_num)).1
    3 { statusCode := 200 } (by norm_num) (by norm_num)
    (by intro k hk1 hk2; interval_cases k <;> decide) rfl (by decide)

/-- A login response carrying a success token (`BDUSS` in the direct cookie
jar) while the body still contains the challenge field `vcodestr`. -/
def tokenWithChallengeResponse : HttpResponse :=
  { statusCode := 200, cookieBduss := some "abc",
    jsonParsed := some (.obj [("vcodestr", .str "xyz")]) }

/-- C1 counterexample: the claim says a response with a success token is
classified `success` even when challenge-like fields are present, but
`_analyze_login_response` tests `_is_captcha_required` before the token:
on a response with cookie `BDUSS=abc` and body `{"vcodestr": "xyz"}` the
token is found, yet the classification is `captcha_required`, not
`success`. -/
theorem token_precedence_counterexample :
    strOptTruthy (extractBduss tokenWithChallengeResponse
        (decodeResponseBody tokenWithChallengeResponse)) = true
    ∧ (analyzeLoginResponse tokenWithChallengeResponse
        (decodeResponseBody tokenWithChallengeResponse)).status = .captchaRequired
    ∧ (analyzeLoginResponse tokenWithChallengeResponse
        (decodeResponseBody tokenWithChallengeResponse)).status ≠ .success := by
  refine ⟨by decide, by decide, by decide⟩

/-- C1 (amended): challenge detection takes precedence over the success
token.  On a response with no challenge signal, a found token forces the
classification `success` regardless of any other body content; when the
body does show a challenge signal, the response is classified
`captcha_required` even if a success token is present (the token is still
reported in the analysis's `bduss` field). -/
theorem token_precedence_amended (response : HttpResponse) (payload : JVal) :
    (isCaptchaRequired payload = false →
      strOptTruthy (extractBduss response payload) = true →
      (analyzeLoginResponse response payload).status = .success
      ∧ (analyzeLoginResponse response payload).bduss = extractBduss response payload)
    ∧ (isCaptchaRequired payload = true →
      (analyzeLoginResponse response payload).status = .captchaRequired
      ∧ (analyzeLoginResponse response payload).bduss = extractBduss response payload) := by
  unfold analyzeLoginResponse
  constructor
  · intro hc hb
    simp [hc, hb]
  · intro hc
    simp [hc]

/-- A login response with a `BDUSS` cookie and a challenge-free body. -/
def tokenOnlyResponse : HttpResponse :=
  { statusCode := 200, cookieBduss := some "abc",
    jsonParsed := some (.obj [("errno", .num 0)]) }

/-- C1 witness: a response with cookie `BDUSS=abc` and a challenge-free
body `{"errno": 0}` classifies as `success` with that token. -/
theorem token_precedence_amended_witness :
    (analyzeLoginResponse tokenOnlyResponse (.obj [("errno", .num 0)])).status = .success
    ∧ (analyzeLoginResponse tokenOnlyResponse (.obj [("errno", .num 0)])).bduss =
      extractBduss tokenOnlyResponse (.obj [("errno", .num 0)]) :=
  (token_precedence_amended tokenOnlyResponse (.obj [("errno", .num 0)])).1
    (by decide) (by decide)

/-- The fields of a decoded JSON object (empty for non-objects). -/
def objFields : JVal → List (String × JVal)
  | .obj fields => fields
  | _ => []

/-- The fatal condition of the amended C2: HTTP status `≥ 400`, or the
decoded body is not a JSON object, or the extracted error code is outside
`{absent, "", "0", "success"}`. -/
def antiReplayFatalSpec (r : HttpResponse) : Bool :=
  decide (400 ≤ r.statusCode) ||
    (match decodeResponseBody r with
     | .obj _ =>
       let errno := safeStr (findFirstValue (decodeResponseBody r) ["errno", "errNo", "err_no", "code"])
       !decide (errno = none ∨ errno = some "" ∨ errno = some "0" ∨ errno = some "success")
     | _ => true)

/-- A non-2xx (but sub-400) response for the anti-replay GET: HTTP 304 with
an empty non-JSON body, which decodes to `{}`. -/
def notModifiedResponse : HttpResponse :=
  { statusCode := 304, contentTypeJson := false, jsonParsed := none, text := "" }

/-- C2 counterexample: the claim says any non-2xx status is fatal, but
`_fetch_antireplay_token` only raises for statuses `≥ 400`: on an HTTP 304
response with a decodable empty body it returns a token (with null fields)
instead of raising. -/
theorem antireplay_fatal_counterexample :
    (fetchAntireplayToken notModifiedResponse).isOk = true
    ∧ ¬(200 ≤ notModifiedResponse.statusCode ∧ notModifiedResponse.statusCode ≤ 299) := by
  refine ⟨by decide, by decide⟩

/-- C2 (amended): the anti-replay fetch raises if and only if the HTTP
status is `≥ 400` (1xx/3xx statuses pass), or the decoded body is not a
JSON object, or the extracted error code is outside
`{absent, "", "0", "success"}`; when those checks pass it returns a token
whose `token`/`servertime` fields are whatever the extraction yields —
possibly null — without raising. -/
theorem antireplay_fatal_amended (r : HttpResponse) :
    ((fetchAntireplayToken r).isOk = false ↔ antiReplayFatalSpec r = true)
    ∧ (antiReplayFatalSpec r = false →
        fetchAntireplayToken r = .ok
          { token := safeStr (findFirstValue (decodeResponseBody r)
              ["antireplaytoken", "token", "tk"])
            servertime := safeStr (findFirstValue (decodeResponseBody r)
              ["servertime", "serverTime", "server_time"])
            raw := objFields (decodeResponseBody r) }) := by
  unfold fetchAntireplayToken antiReplayFatalSpec
  by_cases hs : 400 ≤ r.statusCode
  · simp [hs, Except.isOk, Except.toBool]
  · simp only [if_neg hs, decide_eq_true_eq]
    cases hd : decodeResponseBody r with
    | obj fields =>
      by_cases he : safeStr (findFirstValue (JVal.obj fields) ["errno", "errNo", "err_no", "code"])
          = none
        ∨ safeStr (findFirstValue (JVal.obj fields) ["errno", "errNo", "err_no", "code"])
          = some ""
        ∨ safeStr (findFirstValue (JVal.obj fields) ["errno", "errNo", "err_no", "code"])
          = some "0"
        ∨ safeStr (findFirstValue (JVal.obj fields) ["errno", "errNo", "err_no", "code"])
          = some "success"
      · simp [he, hs, Except.isOk, Except.toBool, objFields]
      · simp [he, hs, Except.isOk, Except.toBool, objFields]
    | null => simp [hs, Except.isOk, Except.toBool]
    | str s => simp [hs, Except.isOk, Except.toBool]
    | num n => simp [hs, Except.isOk, Except.toBool]
    | bool b => simp [hs, Except.isOk, Except.toBool]
    | arr items => simp [hs, Except.isOk, Except.toBool]

/-- C2 witness: the HTTP 304 response with empty body passes the checks and
yields an `AntiReplayToken` with null `token` and `servertime`. -/
theorem antireplay_fatal_amended_witness :
    fetchAntireplayToken notModifiedResponse = .ok
      { token := safeStr (findFirstValue (decodeResponseBody notModifiedResponse)
          ["antireplaytoken", "token", "tk"])
        servertime := safeStr (findFirstValue (decodeResponseBody notModifiedResponse)
          ["servertime", "serverTime", "server_time"])
        raw := objFields (decodeResponseBody notModifiedResponse) } :=
  (antireplay_fatal_amended notModifiedResponse).2 (by decide)

/-! ### Dict lemmas for the Login Form Builder -/

theorem dMem_dSet_of_mem {α : Type} (d : List (String × α)) (k key : String) (v : α)
    (h : dMem d key = true) : dMem (dSet d k v) key = true := by
  unfold dSet
  by_cases hm : dMem d k
  · rw [if_pos hm]
    unfold dMem at h ⊢
    rw [List.any_map]
    have hfun : ((fun p : String × α => decide (p.1 = key)) ∘
        (fun p : String × α => if p.1 = k then (p.1, v) else p)) =
        fun p : String × α => decide (p.1 = key) := by
      funext p
      by_cases hp : p.1 = k <;> simp [hp]
    rw [hfun]
    exact h
  · rw [if_neg hm]
    unfold dMem at h ⊢
    simp [List.any_append, h]

theorem dMem_dSet_inv {α : Type} (d : List (String × α)) (k key : String) (v : α)
    (h : dMem (dSet d k v) key = true) : dMem d key = true ∨ key = k := by
  unfold dSet at h
  by_cases hm : dMem d k
  · rw [if_pos hm] at h
    unfold dMem at h ⊢
    rw [List.any_map] at h
    have hfun : ((fun p : String × α => decide (p.1 = key)) ∘
        (fun p : String × α => if p.1 = k then (p.1, v) else p)) =
        fun p : String × α => decide (p.1 = key) := by
      funext p
      by_cases hp : p.1 = k <;> simp [hp]
    rw [hfun] at h
    exact Or.inl h
  · rw [if_neg hm] at h
    unfold dMem at h ⊢
    simp only [List.any_append, Bool.or_eq_true] at h
    rcases h with h | h
    · exact Or.inl h
    · simp at h
      exact Or.inr h.symm

theorem dLookup_cons {α : Type} (a : String) (b : α) (rest : List (String × α)) (key : String) :
    dLookup ((a, b) :: rest) key = if a = key then some b else dLookup rest key := rfl

theorem dLookup_mapSet {α : Type} (d : List (String × α)) (k key : String) (v : α)
    (hne : key ≠ k) :
    dLookup (d.map (fun p => if p.1 = k then (p.1, v) else p)) key = dLookup d key := by
  induction d with
  | nil => rfl
  | cons p rest ih =>
    cases p with
    | mk a b =>
      have hhead : (if (a, b).1 = k then ((a, b).1, v) else (a, b)) =
          if a = k then (a, v) else (a, b) := rfl
      rw [List.map_cons, hhead]
      by_cases ha : a = k
      · rw [if_pos ha, dLookup_cons, dLookup_cons]
        have hak : ¬ (a = key) := fun hh => hne (hh.symm.trans ha)
        rw [if_neg hak, if_neg hak]
        exact ih
      · rw [if_neg ha, dLookup_cons, dLookup_cons, ih]

theorem dLookup_append_single_ne {α : Type} (d : List (String × α)) (k key : String) (v : α)
    (hne : key ≠ k) : dLookup (d ++ [(k, v)]) key = dLookup d key := by
  have hkk : ¬ (k = key) := fun hh => hne hh.symm
  induction d with
  | nil => rw [List.nil_append, dLookup_cons, if_neg hkk]
  | cons p rest ih =>
    cases p with
    | mk a b =>
      rw [List.cons_append, dLookup_cons, dLookup_cons, ih]

theorem dLookup_dSet_ne {α : Type} (d : List (String × α)) (k key : String) (v : α)
    (hne : key ≠ k) : dLookup (dSet d k v) key = dLookup d key := by
  unfold dSet
  by_cases hm : dMem d k
  · rw [if_pos hm]
    exact dLookup_mapSet d k key v hne
  · rw [if_neg hm]
    exact dLookup_append_single_ne d k key v hne

theorem dLookup_append_of_mem {α : Type} (d l : List (String × α)) (key : String)
    (h : dMem d key = true) : dLookup (d ++ l) key = dLookup d key := by
  induction d with
  | nil => simp [dMem] at h
  | cons p rest ih =>
    cases p with
    | mk a b =>
      simp only [List.cons_append]
      unfold dLookup
      by_cases hak : a = key
      · rw [if_pos hak, if_pos hak]
      · rw [if_neg hak, if_neg hak]
        apply ih
        unfold dMem at h
        simp only [List.any_cons, Bool.or_eq_true] at h
        rcases h with h | h
        · simp at h; exact absurd h hak
        · exact h

theorem dMem_dSetdefault_of_mem {α : Type} (d : List (String × α)) (k key : String) (v : α)
    (h : dMem d key = true) : dMem (dSetdefault d k v) key = true := by
  unfold dSetdefault
  by_cases hm : dMem d k
  · rw [if_pos hm]; exact h
  · rw [if_neg hm]
    unfold dMem at h ⊢
    simp [List.any_append, h]

theorem dLookup_dSetdefault_of_mem {α : Type} (d : List (String × α)) (k key : String) (v : α)
    (h : dMem d key = true) : dLookup (dSetdefault d k v) key = dLookup d key := by
  unfold dSetdefault
  by_cases hm : dMem d k
  · rw [if_pos hm]
  · rw [if_neg hm]
    exact dLookup_append_of_mem d _ key h

/-- The step function of the extras-merging loop in
`_merge_captcha_solution`. -/
def extrasStep (acc : List (String × String)) (p : String × String) : List (String × String) :=
  if p.2 = "" then acc else dSet acc p.1 p.2

theorem foldl_extras_lookup (extras : List (String × String)) (key : String) :
    ∀ acc, (∀ v, (key, v) ∈ extras → v = "") →
      dLookup (extras.foldl extrasStep acc) key = dLookup acc key := by
  induction extras with
  | nil => intro acc h; rfl
  | cons p rest ih =>
    intro acc h
    cases p with
    | mk k1 v1 =>
      simp only [List.foldl_cons]
      by_cases hv : v1 = ""
      · have hstep : extrasStep acc (k1, v1) = acc := by simp [extrasStep, hv]
        rw [hstep]
        exact ih acc fun v hv2 => h v (List.mem_cons_of_mem _ hv2)
      · have hstep : extrasStep acc (k1, v1) = dSet acc k1 v1 := by simp [extrasStep, hv]
        rw [hstep]
        have hkey : key ≠ k1 := by
          intro hk
          subst hk
          exact hv (h v1 (List.mem_cons_self _ _))
        rw [ih _ fun v hv2 => h v (List.mem_cons_of_mem _ hv2),
          dLookup_dSet_ne acc k1 key v1 hkey]

theorem foldl_extras_mem (extras : List (String × String)) (key : String) :
    ∀ acc, dMem acc key = true → dMem (extras.foldl extrasStep acc) key = true := by
  induction extras with
  | nil => intro acc h; exact h
  | cons p rest ih =>
    intro acc h
    simp only [List.foldl_cons]
    apply ih
    unfold extrasStep
    by_cases hv : p.2 = ""
    · rw [if_pos hv]; exact h
    · rw [if_neg hv]; exact dMem_dSet_of_mem acc p.1 key p.2 h

theorem foldl_extras_mem_inv (extras : List (String × String)) (key : String) :
    ∀ acc, dMem (extras.foldl extrasStep acc) key = true →
      dMem acc key = true ∨ ∃ v, (key, v) ∈ extras ∧ v ≠ "" := by
  induction extras with
  | nil => intro acc h; exact Or.inl h
  | cons p rest ih =>
    intro acc h
    cases p with
    | mk k1 v1 =>
      simp only [List.foldl_cons] at h
      rcases ih _ h with h2 | ⟨v, hv, hvne⟩
      · unfold extrasStep at h2
        by_cases hv : v1 = ""
        · rw [if_pos hv] at h2
          exact Or.inl h2
        · rw [if_neg hv] at h2
          rcases dMem_dSet_inv acc k1 key v1 h2 with h3 | h3
          · exact Or.inl h3
          · exact Or.inr ⟨v1, h3 ▸ List.mem_cons_self _ _, hv⟩
      · exact Or.inr ⟨v, List.mem_cons_of_mem _ hv, hvne⟩

theorem dSet_values (d : List (String × String)) (k v : String)
    (hall : ∀ p ∈ d, p.2 ≠ "") (hv : v ≠ "") : ∀ p ∈ dSet d k v, p.2 ≠ "" := by
  unfold dSet
  by_cases hm : dMem d k
  · rw [if_pos hm]
    intro p hp
    obtain ⟨q, hq, hfq⟩ := List.mem_map.mp hp
    by_cases hq1 : q.1 = k
    · rw [if_pos hq1] at hfq
      rw [← hfq]
      exact hv
    · rw [if_neg hq1] at hfq
      rw [← hfq]
      exact hall q hq
  · rw [if_neg hm]
    intro p hp
    rcases List.mem_append.mp hp with h | h
    · exact hall p h
    · simp only [List.mem_singleton] at h
      rw [h]
      exact hv

theorem foldl_extras_values (extras : List (String × String)) :
    ∀ acc, (∀ p ∈ acc, p.2 ≠ "") → ∀ p ∈ extras.foldl extrasStep acc, p.2 ≠ "" := by
  induction extras with
  | nil => intro acc h; exact h
  | cons q rest ih =>
    intro acc h
    simp only [List.foldl_cons]
    apply ih
    unfold extrasStep
    by_cases hv : q.2 = ""
    · rw [if_pos hv]; exact h
    · rw [if_neg hv]; exact dSet_values acc q.1 q.2 h hv

theorem mergeCaptchaSolution_eq_foldl (base : List (String × String))
    (challenge : CaptchaChallenge) (solution : CaptchaSolution) :
    mergeCaptchaSolution base challenge solution =
      solution.extras.foldl extrasStep
        (match pyOrStr (pyOrStr solution.vcodestr challenge.vcodestr) challenge.code_string with
         | some c =>
           if c = "" then dSet base "verifycode" solution.verifycode
           else dSet (dSet (dSet base "verifycode" solution.verifycode) "vcodestr" c) "codeString" c
         | none => dSet base "verifycode" solution.verifycode) := by
  unfold mergeCaptchaSolution extrasStep
  rfl

/-- C5 counterexample: quantified over every challenge descriptor and
solution, the claim fails in `_merge_captcha_solution`: with base form
`{"vcodestr": "old", "x": "y"}`, a challenge carrying `vcodestr = "new"`
and a solution with an empty `verifycode` and no `vcodestr`, the merged
form contains the empty-string value `verifycode = ""` (refuting "never
contains a field whose value is null or the empty string"), and the base
key `vcodestr` changes from `"old"` to `"new"` although the solution does
not supply that key — the value comes from the challenge descriptor. -/
theorem form_builder_counterexample :
    dLookup (mergeCaptchaSolution [("vcodestr", "old"), ("x", "y")]
        { vcodestr := some "new" } { verifycode := "" }) "verifycode" = some ""
    ∧ dLookup (mergeCaptchaSolution [("vcodestr", "old"), ("x", "y")]
        { vcodestr := some "new" } { verifycode := "" }) "vcodestr" = some "new" := by
  refine ⟨by decide, by decide⟩

/-- C5 (amended): the initial Login Form Builder output never contains a
null or empty-string value; the anti-replay step never changes the value of
a key already present (signed fields are never overwritten); merging a
challenge solution removes no key of the base form, and every base key
keeps its old value unless it is one of `verifycode`, `vcodestr`,
`codeString` (whose code-string value may come from the challenge
descriptor rather than the solution) or the solution's extras supply a
non-empty value for it; and the merged form contains no empty value
provided the base form has none and the solution's verification code is
non-empty. -/
theorem form_builder_amended :
    (∀ (params : EncryptedLoginParams) (antiReplay : AntiReplayToken)
        (extra : Option (List (String × Option String))),
        ∀ p ∈ buildLoginFormData params antiReplay extra, p.2 ≠ "")
    ∧ (∀ (formData : List (String × Option String)) (antiReplay : AntiReplayToken)
        (key : String), dMem formData key = true →
        dLookup (formDataWithAntiReplay formData antiReplay) key = dLookup formData key)
    ∧ (∀ (base : List (String × String)) (challenge : CaptchaChallenge)
        (sol : CaptchaSolution) (key : String), dMem base key = true →
        dMem (mergeCaptchaSolution base challenge sol) key = true)
    ∧ (∀ (base : List (String × String)) (challenge : CaptchaChallenge)
        (sol : CaptchaSolution) (key : String), dMem base key = true →
        key ≠ "verifycode" → key ≠ "vcodestr" → key ≠ "codeString" →
        (∀ v, (key, v) ∈ sol.extras → v = "") →
        dLookup (mergeCaptchaSolution base challenge sol) key = dLookup base key)
    ∧ (∀ (base : List (String × String)) (challenge : CaptchaChallenge)
        (sol : CaptchaSolution), (∀ p ∈ base, p.2 ≠ "") → sol.verifycode ≠ "" →
        ∀ p ∈ mergeCaptchaSolution base challenge sol, p.2 ≠ "") := by
  refine ⟨?_, ?_, ?_, ?_, ?_⟩
  · intro params antiReplay extra p hp
    simp only [buildLoginFormData, List.mem_filterMap] at hp
    obtain ⟨a, ha, hfa⟩ := hp
    cases h2 : a.2 with
    | none => rw [h2] at hfa; simp at hfa
    | some v =>
      rw [h2] at hfa
      by_cases hv : v = ""
      · simp [hv] at hfa
      · simp only [hv, if_false, Option.some.injEq] at hfa
        obtain ⟨h3, h4⟩ := Prod.mk.injEq .. ▸ hfa
        rw [← h4]
        exact hv
  · intro formData antiReplay key h
    have hm1 : dMem (dSetdefault (dSetdefault formData "token" antiReplay.token)
        "antireplaytoken" antiReplay.token) key = true :=
      dMem_dSetdefault_of_mem _ _ _ _ (dMem_dSetdefault_of_mem _ _ _ _ h)
    have hl1 : dLookup (dSetdefault (dSetdefault formData "token" antiReplay.token)
        "antireplaytoken" antiReplay.token) key = dLookup formData key := by
      rw [dLookup_dSetdefault_of_mem _ _ _ _ (dMem_dSetdefault_of_mem _ _ _ _ h),
        dLookup_dSetdefault_of_mem _ _ _ _ h]
    simp only [formDataWithAntiReplay]
    by_cases hs : strOptTruthy antiReplay.servertime = true
    · rw [if_pos hs]
      by_cases ht : strOptTruthy antiReplay.token = true
      · rw [if_pos ht, dLookup_dSetdefault_of_mem _ _ _ _ hm1, hl1]
      · rw [if_neg ht, dLookup_dSetdefault_of_mem _ _ _ _ h]
    · rw [if_neg hs]
      by_cases ht : strOptTruthy antiReplay.token = true
      · rw [if_pos ht, hl1]
      · rw [if_neg ht]
  · intro base challenge sol key h
    rw [mergeCaptchaSolution_eq_foldl]
    apply foldl_extras_mem
    split
    · split
      · exact dMem_dSet_of_mem _ _ _ _ h
      · exact dMem_dSet_of_mem _ _ _ _ (dMem_dSet_of_mem _ _ _ _ (dMem_dSet_of_mem _ _ _ _ h))
    · exact dMem_dSet_of_mem _ _ _ _ h
  · intro base challenge sol key h h1 h2 h3 hex
    rw [mergeCaptchaSolution_eq_foldl, foldl_extras_lookup _ _ _ hex]
    split
    · split
      · exact dLookup_dSet_ne _ _ _ _ h1
      · rw [dLookup_dSet_ne _ _ _ _ h3, dLookup_dSet_ne _ _ _ _ h2, dLookup_dSet_ne _ _ _ _ h1]
    · exact dLookup_dSet_ne _ _ _ _ h1
  · intro base challenge sol hall hv
    rw [mergeCaptchaSolution_eq_foldl]
    apply foldl_extras_values
    split
    · split
      · exact dSet_values base _ _ hall hv
      · rename_i c heq hc
        exact dSet_values _ _ _ (dSet_values _ _ _ (dSet_values base _ _ hall hv) hc) hc
    · exact dSet_values base _ _ hall hv

/-- C5 witness: merging a solution with code `4242` into the base form
`{"x": "y"}` leaves the value of `x` unchanged. -/
theorem form_builder_amended_witness :
    dLookup (mergeCaptchaSolution [("x", "y")] {} { verifycode := "4242" }) "x" =
      dLookup [("x", "y")] "x" :=
  form_builder_amended.2.2.2.1 [("x", "y")] {} { verifycode := "4242" } "x" (by decide)
    (by decide) (by decide) (by decide) (by intro v hv; simp at hv)

/-! ### Login orchestrator lemmas -/

theorem loginCaptchaLoop_challenge :
    ∀ (remaining : Nat) (env : LoginEnv) (base : List (String × String))
      (challenge : CaptchaChallenge) (payload : JVal) (attempt : Nat)
      (result : LoginResult) (forms : List (List (String × String))),
      loginCaptchaLoop env base challenge payload attempt remaining = .ok (result, forms) →
      result.status = .captchaRequired → result.captcha_challenge ≠ none := by
  intro remaining
  induction remaining with
  | zero =>
    intro env base challenge payload attempt result forms h hst
    simp only [loginCaptchaLoop, Except.ok.injEq, Prod.mk.injEq] at h
    obtain ⟨hres, hforms⟩ := h
    rw [← hres]
    simp
  | succ r ih =>
    intro env base challenge payload attempt result forms h hst
    simp only [loginCaptchaLoop] at h
    split at h
    · exact absurd h (by simp)
    · simp only [Except.ok.injEq, Prod.mk.injEq] at h
      obtain ⟨hres, hforms⟩ := h
      rw [← hres]
      simp
    · split at h
      · exact absurd h (by simp)
      · split at h
        · simp only [Except.ok.injEq, Prod.mk.injEq] at h
          obtain ⟨hres, hforms⟩ := h
          rw [← hres] at hst
          simp at hst
        · simp only [Except.ok.injEq, Prod.mk.injEq] at h
          obtain ⟨hres, hforms⟩ := h
          rw [← hres] at hst
          simp at hst
        · split at h
          · simp only [Except.ok.injEq, Prod.mk.injEq] at h
            obtain ⟨hres, hforms⟩ := h
            rename_i result2 forms2 heq
            rw [← hres]
            exact ih env base _ _ _ result2 forms2 heq (hres ▸ hst)
          · exact absurd h (by simp)

theorem loginRun_challenge (env : LoginEnv) (hasCallback : Bool) (maxCaptchaAttempts : Int)
    (extraFormData : Option (List (String × Option String)))
    (result : LoginResult) (forms : List (List (String × String)))
    (h : loginRun env hasCallback maxCaptchaAttempts extraFormData = .ok (result, forms))
    (hst : result.status = .captchaRequired) : result.captcha_challenge ≠ none := by
  simp only [loginRun] at h
  split at h
  · exact absurd h (by simp)
  · split at h
    · exact absurd h (by simp)
    · split at h
      · exact absurd h (by simp)
      · split at h
        · exact absurd h (by simp)
        · split at h
          · simp only [Except.ok.injEq, Prod.mk.injEq] at h
            obtain ⟨hres, hforms⟩ := h
            rw [← hres] at hst
            simp at hst
          · simp only [Except.ok.injEq, Prod.mk.injEq] at h
            obtain ⟨hres, hforms⟩ := h
            rw [← hres] at hst
            simp at hst
          · split at h
            · split at h
              · simp only [Except.ok.injEq, Prod.mk.injEq] at h
                obtain ⟨hres, hforms⟩ := h
                rename_i heq
                rw [← hres] at hst ⊢
                exact loginCaptchaLoop_challenge _ env _ _ _ _ _ _ heq hst
              · exact absurd h (by simp)
            · simp only [Except.ok.injEq, Prod.mk.injEq] at h
              obtain ⟨hres, hforms⟩ := h
              rw [← hres]
              simp

/-- C6: every `LoginResult` returned by `login` with status
`captcha_required` carries a non-null challenge descriptor, on every path
that produces one (no solver supplied, solver returned no usable answer,
challenge attempts exhausted). -/
theorem captcha_result_carries_challenge (env : LoginEnv) (username password : String)
    (hasCallback : Bool) (maxCaptchaAttempts : Int)
    (extraFormData : Option (List (String × Option String)))
    (hst : (login env username password hasCallback maxCaptchaAttempts extraFormData).status =
      .captchaRequired) :
    (login env username password hasCallback maxCaptchaAttempts extraFormData).captcha_challenge
      ≠ none := by
  unfold login loginWithTrace at hst ⊢
  by_cases h1 : pyStrip username = ""
  · rw [if_pos h1] at hst; simp at hst
  · rw [if_neg h1] at hst ⊢
    by_cases h2 : password = ""
    · rw [if_pos h2] at hst; simp at hst
    · rw [if_neg h2] at hst ⊢
      by_cases h3 : maxCaptchaAttempts ≤ 0
      · rw [if_pos h3] at hst; simp at hst
      · rw [if_neg h3] at hst ⊢
        cases hrun : loginRun env hasCallback maxCaptchaAttempts extraFormData with
        | ok r =>
          rw [hrun] at hst
          have hok : loginRun env hasCallback maxCaptchaAttempts extraFormData =
              .ok (r.1, r.2) := by rw [hrun]
          have hst2 : r.1.status = .captchaRequired := hst
          show r.1.captcha_challenge ≠ none
          exact loginRun_challenge env hasCallback maxCaptchaAttempts extraFormData r.1 r.2
            hok hst2
        | error e =>
          rw [hrun] at hst
          cases e with
          | clientError m => simp at hst
          | handlerError m => simp at hst

/-- A login environment whose login endpoint always answers with a
challenge (`errno = 120021`, `vcodestr = "xyz"`). -/
def challengeLoginEnv : LoginEnv :=
  { jsrpcResult := .ok { username := some "u", password := some "p" }
    antiReplayResponse := .ok { statusCode := 200, jsonParsed := some (.obj []) }
    loginResponses := fun _ => .ok
      { statusCode := 200
        jsonParsed := some (.obj [("errno", .str "120021"), ("vcodestr", .str "xyz")]) }
    callbackResults := fun _ => .nothing }

/-- C6 witness: with no solver supplied and a challenge response, the
`captcha_required` result carries a challenge descriptor. -/
theorem captcha_result_carries_challenge_witness :
    (login challengeLoginEnv "user" "pw" false 2 none).captcha_challenge ≠ none :=
  captcha_result_carries_challenge challengeLoginEnv "user" "pw" false 2 none (by decide)

theorem loginCaptchaLoop_success_flag :
    ∀ (remaining : Nat) (env : LoginEnv) (base : List (String × String))
      (challenge : CaptchaChallenge) (payload : JVal) (attempt : Nat)
      (result : LoginResult) (forms : List (List (String × String))),
      loginCaptchaLoop env base challenge payload attempt remaining = .ok (result, forms) →
      (result.success = true ↔ result.status = .success) := by
  intro remaining
  induction remaining with
  | zero =>
    intro env base challenge payload attempt result forms h
    simp only [loginCaptchaLoop, Except.ok.injEq, Prod.mk.injEq] at h
    obtain ⟨hres, hforms⟩ := h
    rw [← hres]
    simp
  | succ r ih =>
    intro env base challenge payload attempt result forms h
    simp only [loginCaptchaLoop] at h
    split at h
    · exact absurd h (by simp)
    · simp only [Except.ok.injEq, Prod.mk.injEq] at h
      obtain ⟨hres, hforms⟩ := h
      rw [← hres]
      simp
    · split at h
      · exact absurd h (by simp)
      · split at h
        · simp only [Except.ok.injEq, Prod.mk.injEq] at h
          obtain ⟨hres, hforms⟩ := h
          rw [← hres]
          simp
        · simp only [Except.ok.injEq, Prod.mk.injEq] at h
          obtain ⟨hres, hforms⟩ := h
          rw [← hres]
          simp
        · split at h
          · simp only [Except.ok.injEq, Prod.mk.injEq] at h
            obtain ⟨hres, hforms⟩ := h
            rename_i result2 forms2 heq
            rw [← hres]
            exact ih env base _ _ _ result2 forms2 heq
          · exact absurd h (by simp)

theorem loginRun_success_flag (env : LoginEnv) (hasCallback : Bool) (maxCaptchaAttempts : Int)
    (extraFormData : Option (List (String × Option String)))
    (result : LoginResult) (forms : List (List (String × String)))
    (h : loginRun env hasCallback maxCaptchaAttempts extraFormData = .ok (result, forms)) :
    (result.success = true ↔ result.status = .success) := by
  simp only [loginRun] at h
  split at h
  · exact absurd h (by simp)
  · split at h
    · exact absurd h (by simp)
    · split at h
      · exact absurd h (by simp)
      · split at h
        · exact absurd h (by simp)
        · split at h
          · simp only [Except.ok.injEq, Prod.mk.injEq] at h
            obtain ⟨hres, hforms⟩ := h
            rw [← hres]
            simp
          · simp only [Except.ok.injEq, Prod.mk.injEq] at h
            obtain ⟨hres, hforms⟩ := h
            rw [← hres]
            simp
          · split at h
            · split at h
              · simp only [Except.ok.injEq, Prod.mk.injEq] at h
                obtain ⟨hres, hforms⟩ := h
                rename_i heq
                rw [← hres]
                exact loginCaptchaLoop_success_flag _ env _ _ _ _ _ _ heq
              · exact absurd h (by simp)
            · simp only [Except.ok.injEq, Prod.mk.injEq] at h
              obtain ⟨hres, hforms⟩ := h
              rw [← hres]
              simp

/-- C10: every `LoginResult` returned by `login` has its `success` flag
equal to whether its status is `success`: `success`-tagged results carry
`success = true`, and `failed`, `captcha_required` and `error`-tagged
results carry `success = false`. -/
theorem success_flag_iff_status (env : LoginEnv) (username password : String)
    (hasCallback : Bool) (maxCaptchaAttempts : Int)
    (extraFormData : Option (List (String × Option String))) :
    ((login env username password hasCallback maxCaptchaAttempts extraFormData).success = true
      ↔ (login env username password hasCallback maxCaptchaAttempts extraFormData).status =
        .success) := by
  unfold login loginWithTrace
  by_cases h1 : pyStrip username = ""
  · rw [if_pos h1]; simp
  · rw [if_neg h1]
    by_cases h2 : password = ""
    · rw [if_pos h2]; simp
    · rw [if_neg h2]
      by_cases h3 : maxCaptchaAttempts ≤ 0
      · rw [if_pos h3]; simp
      · rw [if_neg h3]
        cases hrun : loginRun env hasCallback maxCaptchaAttempts extraFormData with
        | ok r =>
          have hok : loginRun env hasCallback maxCaptchaAttempts extraFormData =
              .ok (r.1, r.2) := by rw [hrun]
          show (r.1.success = true ↔ r.1.status = .success)
          exact loginRun_success_flag env hasCallback maxCaptchaAttempts extraFormData r.1 r.2
            hok
        | error e =>
          cases e with
          | clientError m => simp
          | handlerError m => simp

/-- C8: a callback return of `None`, a blank string, a `CaptchaSolution`
with an empty code, or a mapping without a non-empty `verifycode`/`code`
entry normalizes to "no usable answer", which makes the challenge loop
terminate immediately with a `captcha_required` result tagged
`captcha_callback_empty` ("callback returned nothing usable"); a return
value of an unsupported type raises a `BaiduLoginHandlerError`, which the
orchestrator surfaces as a hard `error`-tagged result with code
`handler_error`. -/
theorem callback_no_answer_contract :
    (∀ (raw : CallbackRaw) (challenge : CaptchaChallenge),
        (raw = .nothing
          ∨ (∃ s, raw = .str s ∧ pyStrip s = "")
          ∨ (∃ sol, raw = .solution sol ∧ sol.verifycode = "")
          ∨ (∃ m, raw = .mapping m ∧ strOptTruthy (mGet m "verifycode") = false
              ∧ strOptTruthy (mGet m "code") = false)) →
        invokeCaptchaCallback raw challenge = .ok none)
    ∧ (∀ (env : LoginEnv) (base : List (String × String)) (challenge : CaptchaChallenge)
        (payload : JVal) (attempt remaining : Nat),
        invokeCaptchaCallback (env.callbackResults (attempt - 1)) challenge = .ok none →
        loginCaptchaLoop env base challenge payload attempt (remaining + 1) =
          .ok ({ status := .captchaRequired, message := "验证码回调未返回有效结果",
                 success := false, error_code := some "captcha_callback_empty",
                 response := some payload, captcha_challenge := some challenge }, []))
    ∧ (∀ (env : LoginEnv) (base : List (String × String)) (challenge : CaptchaChallenge)
        (payload : JVal) (attempt remaining : Nat),
        env.callbackResults (attempt - 1) = .unsupported →
        loginCaptchaLoop env base challenge payload attempt (remaining + 1) =
          .error "验证码回调返回类型不受支持")
    ∧ (∀ (env : LoginEnv) (username password : String) (hasCallback : Bool)
        (maxCaptchaAttempts : Int) (extraFormData : Option (List (String × Option String)))
        (e : String), pyStrip username ≠ "" → password ≠ "" → ¬(maxCaptchaAttempts ≤ 0) →
        loginRun env hasCallback maxCaptchaAttempts extraFormData = .error (.handlerError e) →
        login env username password hasCallback maxCaptchaAttempts extraFormData =
          { status := .error, message := e, success := false,
            error_code := some "handler_error" })
    ∧ (∀ (env : LoginEnv) (username password : String) (hasCallback : Bool)
        (maxCaptchaAttempts : Int) (extraFormData : Option (List (String × Option String)))
        (result : LoginResult) (forms : List (List (String × String))),
        pyStrip username ≠ "" → password ≠ "" → ¬(maxCaptchaAttempts ≤ 0) →
        loginRun env hasCallback maxCaptchaAttempts extraFormData = .ok (result, forms) →
        login env username password hasCallback maxCaptchaAttempts extraFormData = result) := by
  refine ⟨?_, ?_, ?_, ?_, ?_⟩
  · intro raw challenge h
    rcases h with h | ⟨s, hs, hstrip⟩ | ⟨sol, hsol, hcode⟩ | ⟨m, hmm, hv1, hv2⟩
    · rw [h]; rfl
    · rw [hs]
      simp only [invokeCaptchaCallback]
      rw [if_pos hstrip]
    · rw [hsol]
      simp only [invokeCaptchaCallback]
      rw [if_pos hcode]
    · rw [hmm]
      simp only [invokeCaptchaCallback]
      have hor : pyOrStr (mGet m "verifycode") (mGet m "code") = mGet m "code" := by
        unfold pyOrStr
        rw [if_neg]
        simp [hv1]
      have hys : pyStrip ((pyOrStr (mGet m "verifycode") (mGet m "code")).getD "") = "" := by
        rw [hor]
        cases hc : mGet m "code" with
        | none => rfl
        | some s =>
          rw [hc] at hv2
          simp only [strOptTruthy, Option.any_some] at hv2
          have hse : s = "" := by simpa using hv2
          rw [hse]
          rfl
      rw [if_pos hys]
  · intro env base challenge payload attempt remaining hinv
    simp only [loginCaptchaLoop]
    rw [hinv]
  · intro env base challenge payload attempt remaining henv
    simp only [loginCaptchaLoop, henv, invokeCaptchaCallback]
  · intro env username password hasCallback maxCaptchaAttempts extraFormData e hu hp hm hrun
    unfold login loginWithTrace
    rw [if_neg hu, if_neg hp, if_neg hm, hrun]
  · intro env username password hasCallback maxCaptchaAttempts extraFormData result forms
      hu hp hm hrun
    unfold login loginWithTrace
    rw [if_neg hu, if_neg hp, if_neg hm, hrun]

/-- A login environment whose callback always returns `None`. -/
def noAnswerEnv : LoginEnv :=
  { jsrpcResult := .ok {}
    antiReplayResponse := .ok { statusCode := 200, jsonParsed := some (.obj []) }
    loginResponses := fun _ => .ok { statusCode := 200, jsonParsed := some (.obj []) }
    callbackResults := fun _ => .nothing }

/-- C8 witness: a callback that returns `None` at attempt 1 (two attempts
remaining) terminates the loop immediately with the
`captcha_callback_empty` result. -/
theorem callback_no_answer_contract_witness :
    loginCaptchaLoop noAnswerEnv [] {} (.obj []) 1 2 =
      .ok ({ status := .captchaRequired, message := "验证码回调未返回有效结果",
             success := false, error_code := some "captcha_callback_empty",
             response := some (.obj []), captcha_challenge := some {} }, []) :=
  callback_no_answer_contract.2.1 noAnswerEnv [] {} (.obj []) 1 1
    (callback_no_answer_contract.1 (noAnswerEnv.callbackResults 0) {} (Or.inl rfl))

theorem mergeCaptchaSolution_mem_inv (base : List (String × String))
    (challenge : CaptchaChallenge) (sol : CaptchaSolution) (key : String)
    (h : dMem (mergeCaptchaSolution base challenge sol) key = true) :
    dMem base key = true ∨ key = "verifycode" ∨ key = "vcodestr" ∨ key = "codeString"
    ∨ ∃ v, (key, v) ∈ sol.extras ∧ v ≠ "" := by
  rw [mergeCaptchaSolution_eq_foldl] at h
  rcases foldl_extras_mem_inv _ _ _ h with h2 | hex
  · split at h2
    · split at h2
      · rcases dMem_dSet_inv _ _ _ _ h2 with h3 | h3
        · exact Or.inl h3
        · exact Or.inr (Or.inl h3)
      · rcases dMem_dSet_inv _ _ _ _ h2 with h3 | h3
        · rcases dMem_dSet_inv _ _ _ _ h3 with h4 | h4
          · rcases dMem_dSet_inv _ _ _ _ h4 with h5 | h5
            · exact Or.inl h5
            · exact Or.inr (Or.inl h5)
          · exact Or.inr (Or.inr (Or.inl h4))
        · exact Or.inr (Or.inr (Or.inr (Or.inl h3)))
    · rcases dMem_dSet_inv _ _ _ _ h2 with h3 | h3
      · exact Or.inl h3
      · exact Or.inr (Or.inl h3)
  · exact Or.inr (Or.inr (Or.inr (Or.inr hex)))

theorem merge_new_key_from_extras (base : List (String × String))
    (challenge : CaptchaChallenge) (sol : CaptchaSolution) (key : String)
    (hmem : dMem (mergeCaptchaSolution base challenge sol) key = true)
    (hnb : dMem base key = false) (h1 : key ≠ "verifycode") (h2 : key ≠ "vcodestr")
    (h3 : key ≠ "codeString") : ∃ v, (key, v) ∈ sol.extras ∧ v ≠ "" := by
  rcases mergeCaptchaSolution_mem_inv base challenge sol key hmem with h | h | h | h | h
  · rw [hnb] at h
    exact absurd h (by decide)
  · exact absurd h h1
  · exact absurd h h2
  · exact absurd h h3
  · exact h

/-- C9: in the challenge retry loop, every resubmitted form is
`_merge_captcha_solution` applied to the initial form built before the
first submission (never to the previously merged form): each emitted form
is a merge of some attempt's normalized solution into the loop's fixed base
form, and any key it carries beyond the base form comes from that
attempt's own solution extras or is one of the merge's
`verifycode`/`vcodestr`/`codeString` keys — fields from an earlier
attempt's solution never persist. -/
theorem resubmission_merges_into_initial_form :
    ∀ (remaining : Nat) (env : LoginEnv) (base : List (String × String))
      (challenge : CaptchaChallenge) (payload : JVal) (attempt : Nat)
      (result : LoginResult) (forms : List (List (String × String))),
      loginCaptchaLoop env base challenge payload attempt remaining = .ok (result, forms) →
      ∀ f ∈ forms, ∃ (j : Nat) (ch : CaptchaChallenge) (sol : CaptchaSolution),
        invokeCaptchaCallback (env.callbackResults j) ch = .ok (some sol)
        ∧ f = mergeCaptchaSolution base ch sol
        ∧ ∀ key, dMem f key = true → dMem base key = false →
            key ≠ "verifycode" → key ≠ "vcodestr" → key ≠ "codeString" →
            ∃ v, (key, v) ∈ sol.extras ∧ v ≠ "" := by
  intro remaining
  induction remaining with
  | zero =>
    intro env base challenge payload attempt result forms h f hf
    simp only [loginCaptchaLoop, Except.ok.injEq, Prod.mk.injEq] at h
    obtain ⟨hres, hforms⟩ := h
    rw [← hforms] at hf
    simp at hf
  | succ r ih =>
    intro env base challenge payload attempt result forms h f hf
    simp only [loginCaptchaLoop] at h
    split at h
    · exact absurd h (by simp)
    · simp only [Except.ok.injEq, Prod.mk.injEq] at h
      obtain ⟨hres, hforms⟩ := h
      rw [← hforms] at hf
      simp at hf
    · rename_i solution hinv
      split at h
      · exact absurd h (by simp)
      · split at h
        · simp only [Except.ok.injEq, Prod.mk.injEq] at h
          obtain ⟨hres, hforms⟩ := h
          rw [← hforms] at hf
          simp only [List.mem_singleton] at hf
          subst hf
          refine ⟨attempt - 1, challenge, solution, hinv, rfl, ?_⟩
          intro key hk hnb k1 k2 k3
          exact merge_new_key_from_extras base challenge solution key hk hnb k1 k2 k3
        · simp only [Except.ok.injEq, Prod.mk.injEq] at h
          obtain ⟨hres, hforms⟩ := h
          rw [← hforms] at hf
          simp only [List.mem_singleton] at hf
          subst hf
          refine ⟨attempt - 1, challenge, solution, hinv, rfl, ?_⟩
          intro key hk hnb k1 k2 k3
          exact merge_new_key_from_extras base challenge solution key hk hnb k1 k2 k3
        · split at h
          · rename_i result2 forms2 heq
            simp only [Except.ok.injEq, Prod.mk.injEq] at h
            obtain ⟨hres, hforms⟩ := h
            rw [← hforms] at hf
            rcases List.mem_cons.mp hf with hf1 | hf2
            · subst hf1
              refine ⟨attempt - 1, challenge, solution, hinv, rfl, ?_⟩
              intro key hk hnb k1 k2 k3
              exact merge_new_key_from_extras base challenge solution key hk hnb k1 k2 k3
            · exact ih env base _ _ _ result2 forms2 heq f hf2
          · exact absurd h (by simp)

/-- A login environment whose callback answers `"4242"` and whose login
endpoint then answers with a `BDUSS` success cookie. -/
def mergeTraceEnv : LoginEnv :=
  { jsrpcResult := .ok {}
    antiReplayResponse := .ok { statusCode := 200, jsonParsed := some (.obj []) }
    loginResponses := fun _ => .ok
      { statusCode := 200, cookieBduss := some "abc", jsonParsed := some (.obj []) }
    callbackResults := fun _ => .str "4242" }

/-- C9 witness: the single resubmitted form of a concrete loop run is the
merge of that attempt's solution into the initial form `{"username": "u"}`,
and every key beyond the base form is a merge key. -/
theorem resubmission_merges_into_initial_form_witness :
    ∃ (j : Nat) (ch : CaptchaChallenge) (sol : CaptchaSolution),
      invokeCaptchaCallback (mergeTraceEnv.callbackResults j) ch = .ok (some sol)
      ∧ [("username", "u"), ("verifycode", "4242"), ("vcodestr", "xyz"), ("codeString", "xyz")] =
        mergeCaptchaSolution [("username", "u")] ch sol
      ∧ ∀ key, dMem [("username", "u"), ("verifycode", "4242"), ("vcodestr", "xyz"),
            ("codeString", "xyz")] key = true →
          dMem [("username", "u")] key = false →
          key ≠ "verifycode" → key ≠ "vcodestr" → key ≠ "codeString" →
          ∃ v, (key, v) ∈ sol.extras ∧ v ≠ "" :=
  resubmission_merges_into_initial_form 1 mergeTraceEnv [("username", "u")]
    { vcodestr := some "xyz" } (.obj []) 1
    { status := .success, message := "登录成功", success := true, bduss := some "abc",
      error_code := none, response := some (.obj []), captcha_challenge := none }
    [[("username", "u"), ("verifycode", "4242"), ("vcodestr", "xyz"), ("codeString", "xyz")]]
    rfl
    [("username", "u"), ("verifycode", "4242"), ("vcodestr", "xyz"), ("codeString", "xyz")]
    (by simp)

end BaiduLogin
